import Mathlib

/-!
Verification of the onyx document-ingestion core (PDF protection probing and
content extraction) and of the settings endpoint `fetch_settings`.

The PDF core (`onyx.file_processing.password_validation` and
`onyx.file_processing.extract_file_text`) is exercised by the repository's unit
tests but its implementation modules are not part of the available sources, so
the core's data model and operations below are modelled from the specification
(spec.md sections 3, 4 and 7).  `fetch_settings` is translated from
`src/backend/onyx/server/settings/api.py`.
-/

/-- Modelled from the spec: a raw metadata value as found in the source
document — either a string scalar or a sequence of strings (spec section 4.3:
sequence-typed values are flattened to a single string). -/
inductive MetaValue where
  | str (v : String)
  | strList (vs : List String)
deriving Repr, DecidableEq

/-- Modelled from the spec: a Page of a Document Handle (spec section 3).  Its
content stream either decodes to text (`some t`) or fails with
`PageDecodeFailed` (`none`); its resource dictionary carries the embedded
raster images, each a pair of raw bytes and a derived name. -/
structure Page where
  textContent : Option String
  images : List (List Nat × String)
deriving Repr, DecidableEq

/-- Modelled from the spec: the Encryption Descriptor of an encrypted document
(spec section 3).  The algorithm parameters are opaque to the core; the only
observable datum is which password opens the document (a password attempt
succeeds exactly when it supplies this string). -/
structure EncryptionDescriptor where
  password : String
deriving Repr, DecidableEq

/-- Modelled from the spec: a Document Handle (spec section 3) — the parsed
representation of one input byte stream: an ordered page sequence, an optional
Encryption Descriptor, and the raw metadata dictionary with keys as found in
the source. -/
structure DocHandle where
  pages : List Page
  encryption : Option EncryptionDescriptor
  rawMetadata : List (String × MetaValue)
deriving Repr, DecidableEq

/-- Modelled from the spec: the structural content of an input byte sequence —
either it parses to a Document Handle, or it is not parseable as a PDF at all
(`MalformedDocument`, spec sections 4.1 and 7). -/
inductive PdfInput where
  | malformed
  | valid (doc : DocHandle)
deriving Repr, DecidableEq

/-- Modelled from the spec: a seekable byte stream (spec section 6): its
structural content, its current read position, and its total size. -/
structure ByteStream where
  content : PdfInput
  pos : Nat
  size : Nat
deriving Repr, DecidableEq

/-- Modelled from the spec: the Structural Decoder's `open` operation (spec
section 4.1): parses the stream into a Document Handle or fails with
`MalformedDocument`; it may advance the stream's read cursor (modelled as
leaving the cursor at end of stream after locating the trailer) and makes no
position-restoration promise itself. -/
def structuralOpen (s : ByteStream) : Except Unit DocHandle × ByteStream :=
  match s.content with
  | .malformed => (Except.error (), { s with pos := s.size })
  | .valid doc => (Except.ok doc, { s with pos := s.size })

/-- Modelled from the spec: the Protection Prober's `is_protected` operation
(`is_pdf_protected`, spec section 4.2): saves the read position, opens the
document structurally, answers true iff an Encryption Descriptor is present
(never attempting decryption), treats `MalformedDocument` as "not protected",
and restores the stream position on every exit path. -/
def is_pdf_protected (s : ByteStream) : Bool × ByteStream :=
  let saved := s.pos
  let r := structuralOpen s
  let answer :=
    match r.1 with
    | .ok doc => doc.encryption.isSome
    | .error _ => false
  (answer, { r.2 with pos := saved })

/-- Modelled from the spec: the extension of a file name — the suffix starting
at the last dot, or the empty string when the name has no dot (spec section 6:
format routing is gated by filename extension). -/
def fileExtension (name : String) : String :=
  let rev := name.toList.reverse
  if rev.contains '.' then
    String.mk ('.' :: (rev.takeWhile (fun c => c != '.')).reverse)
  else ""

/-- Modelled from the spec: the extension used by the dispatch wrapper — the
explicitly supplied one when present, otherwise inferred from the name (spec
section 4.2). -/
def resolvedExtension (name : String) (ext : Option String) : String :=
  match ext with
  | some e => e
  | none => fileExtension name

/-- Modelled from the spec: character-wise lowercasing of a string, used for
the case-insensitive extension comparison (spec section 6). -/
def lowerString (x : String) : String :=
  String.mk (x.toList.map Char.toLower)

/-- Modelled from the spec: `is_protected_by_name`
(`is_file_password_protected`, spec section 4.2): a pure dispatch wrapper — if
the resolved extension is the PDF extension (case-insensitively), delegate to
`is_pdf_protected`; for every other extension return false without touching
the stream. -/
def is_file_password_protected (s : ByteStream) (name : String)
    (ext : Option String) : Bool × ByteStream :=
  if lowerString (resolvedExtension name ext) = ".pdf" then is_pdf_protected s
  else (false, s)

/-- Modelled from the spec: the Extraction Result triple (spec section 3):
concatenated text, normalized metadata mapping, and the sequence of embedded
images (bytes paired with a name). -/
structure ExtractionResult where
  text : String
  metadata : List (String × String)
  images : List (List Nat × String)
deriving Repr, DecidableEq

/-- Modelled from the spec: the extractor's single decryption attempt (spec
section 4.3): an unencrypted document always opens; an encrypted one opens
exactly when the supplied password (an absent password counts as an attempt
with the empty password) is the document's password.  Exactly one attempt per
call, no retry. -/
def attemptOpen (doc : DocHandle) (pdf_pass : Option String) : Bool :=
  match doc.encryption with
  | none => true
  | some enc => pdf_pass.getD "" == enc.password

/-- Modelled from the spec: the text contributed by one page (spec section
4.3): its decoded content-stream text, or the empty string when the page fails
to decode (`PageDecodeFailed` is absorbed per page). -/
def pageText (p : Page) : String :=
  match p.textContent with
  | some t => t
  | none => ""

/-- Modelled from the spec: metadata value normalization (spec section 4.3):
string values pass through; sequence-typed values are flattened with the
deterministic separator `", "` (implementer's choice, documented here). -/
def metaValueToString : MetaValue → String
  | .str v => v
  | .strList vs => String.intercalate ", " vs

/-- Modelled from the spec: metadata key normalization (spec sections 3 and
4.3 and invariant (b)): the leading namespace marker characters `/` are
stripped from the raw key, so that no normalized key begins with the marker. -/
def cleanKey (k : String) : String :=
  String.mk (k.toList.dropWhile (fun c => c == '/'))

/-- Modelled from the spec: the Content Extractor's `extract` operation
(`read_pdf_file`, spec section 4.3).  The image sink callback is modelled by
the flag `hasImageCallback` together with the second component of the result:
the ordered list of sink invocations (one `(bytes, name)` entry per delivered
image).  Malformed input and failed decryption degrade to the fully empty
result; a successfully opened document yields the page-order text
concatenation, the normalized metadata, and — only when `extract_images` is
set — the discovered images, delivered to the sink when a callback is
supplied and collected in the result otherwise. -/
def read_pdf_file (s : ByteStream) (pdf_pass : Option String)
    (extract_images : Bool) (hasImageCallback : Bool) :
    ExtractionResult × List (List Nat × String) :=
  match s.content with
  | .malformed => (⟨"", [], []⟩, [])
  | .valid doc =>
    match attemptOpen doc pdf_pass with
    | false => (⟨"", [], []⟩, [])
    | true =>
      let text := String.join (doc.pages.map pageText)
      let metadata :=
        doc.rawMetadata.map (fun kv => (cleanKey kv.1, metaValueToString kv.2))
      let discovered :=
        if extract_images then (doc.pages.map Page.images).flatten else []
      if hasImageCallback then (⟨text, metadata, []⟩, discovered)
      else (⟨text, metadata, discovered⟩, [])

/-- Modelled from the spec: `pdf_to_text` — the text component of a full
extraction without image handling. -/
def pdf_to_text (s : ByteStream) (pdf_pass : Option String) : String :=
  (read_pdf_file s pdf_pass false false).1.text

/-- Modelled from the spec: the total number of embedded images of a document
(spec section 8, sink-exclusivity: the document contains N images). -/
def numImages (doc : DocHandle) : Nat :=
  (doc.pages.map (fun p => p.images.length)).sum

/-- Modelled from the spec: whether a string begins with the document's
namespace marker character `/` (spec invariant (b)). -/
def startsWithMarker (k : String) : Bool :=
  match k.toList with
  | [] => false
  | c :: _ => c == '/'

/-- The user-facing settings payload assembled by `fetch_settings`
(src/backend/onyx/server/settings/api.py): the general settings fields passed
through unchanged, plus `notifications` and `needs_reindexing`.  The
general-settings payload itself is opaque to `fetch_settings` (its model class
lives outside the available sources), so it is carried as a type parameter. -/
structure UserSettings (α : Type) where
  settings : α
  notifications : List String
  needs_reindexing : Bool
deriving Repr

/-- The error raised by the key-value store when the requested key is absent
(`KvKeyNotFoundError` in src/backend/onyx/server/settings/api.py). -/
inductive KvKeyNotFoundError where
  | mk
deriving Repr, DecidableEq

/-- `fetch_settings` from src/backend/onyx/server/settings/api.py: loads the
general settings, reads the reindex flag `KV_REINDEX_KEY` from the key-value
store treating a missing key (`KvKeyNotFoundError`) as `false`, and returns
the combined payload with an empty notification list.  The outcome of the
store lookup is passed as an argument: `Except.error` models the raised
`KvKeyNotFoundError`, `Except.ok` the successfully loaded boolean. -/
def fetch_settings {α : Type} (general_settings : α)
    (kvLoad : Except KvKeyNotFoundError Bool) : UserSettings α :=
  let needs_reindexing :=
    match kvLoad with
    | Except.ok b => b
    | Except.error _ => false
  { settings := general_settings, notifications := [],
    needs_reindexing := needs_reindexing }

/-- A document with one blank page and a namespaced Title metadata entry,
mirroring the fixture of test_extract_file_text_pdf.py. -/
def metaDoc : DocHandle :=
  { pages := [{ textContent := some "", images := [] }],
    encryption := none,
    rawMetadata := [("/Title", MetaValue.str "My Title")] }

/-- A stream carrying `metaDoc`. -/
def sampleStream : ByteStream :=
  { content := PdfInput.valid metaDoc, pos := 0, size := 180 }

/-- A document encrypted with the password "secret123", mirroring the
encrypted fixture of the unit tests. -/
def encDoc : DocHandle :=
  { pages := [{ textContent := some "hello", images := [] }],
    encryption := some { password := "secret123" },
    rawMetadata := [] }

/-- A stream carrying `encDoc`. -/
def encryptedStream : ByteStream :=
  { content := PdfInput.valid encDoc, pos := 0, size := 80 }

/-- A document whose opening password is the blank string, the case the spec
admits under the blank-owner-password convention. -/
def blankPasswordDoc : DocHandle :=
  { pages := [{ textContent := some "hello", images := [] }],
    encryption := some { password := "" },
    rawMetadata := [] }

/-- A stream carrying `blankPasswordDoc`. -/
def blankPasswordStream : ByteStream :=
  { content := PdfInput.valid blankPasswordDoc, pos := 0, size := 64 }

/-- A byte sequence that is not parseable as a PDF at all. -/
def malformedStream : ByteStream :=
  { content := PdfInput.malformed, pos := 3, size := 20 }

/-- An unencrypted document whose middle page fails to decode. -/
def mixedDoc : DocHandle :=
  { pages := [{ textContent := some "a", images := [] },
              { textContent := none, images := [] },
              { textContent := some "b", images := [] }],
    encryption := none,
    rawMetadata := [] }

/-- A stream carrying `mixedDoc`. -/
def mixedStream : ByteStream :=
  { content := PdfInput.valid mixedDoc, pos := 0, size := 120 }

/-- An unencrypted document with three embedded images spread over two
pages. -/
def imageDoc : DocHandle :=
  { pages := [{ textContent := some "", images := [([0, 1], "image_0")] },
              { textContent := none,
                images := [([2, 3], "image_1"), ([4], "image_2")] }],
    encryption := none,
    rawMetadata := [] }

/-- A stream carrying `imageDoc`. -/
def imageStream : ByteStream :=
  { content := PdfInput.valid imageDoc, pos := 0, size := 150 }

/-- The Protection Prober returns the stream it was given, entirely unchanged:
shared helper behind the restoration and idempotence claims. -/
theorem is_pdf_protected_snd (s : ByteStream) : (is_pdf_protected s).2 = s := by
  obtain ⟨c, p, z⟩ := s
  cases c <;> rfl

/-- Folding string append from any accumulator splits off the accumulator. -/
theorem string_foldl_append (l : List String) (x : String) :
    l.foldl (fun r s => r ++ s) x = x ++ l.foldl (fun r s => r ++ s) "" := by
  induction l generalizing x with
  | nil => simp
  | cons a t ih =>
    simp only [List.foldl_cons]
    rw [ih (x ++ a), ih ("" ++ a), String.empty_append, String.append_assoc]

/-- `String.join` of a cons. -/
theorem string_join_cons (a : String) (l : List String) :
    String.join (a :: l) = a ++ String.join l := by
  simp only [String.join, List.foldl_cons]
  rw [string_foldl_append l ("" ++ a), String.empty_append]

/-- `String.join` distributes over list append. -/
theorem string_join_append (l1 l2 : List String) :
    String.join (l1 ++ l2) = String.join l1 ++ String.join l2 := by
  induction l1 with
  | nil => rfl
  | cons a t ih =>
    rw [List.cons_append, string_join_cons, string_join_cons, ih,
      String.append_assoc]

/-- On a successfully opened document the extractor's metadata mapping is the
normalized image of the raw metadata dictionary, for either sink mode. -/
theorem read_pdf_file_metadata_valid (doc : DocHandle) (p z : Nat)
    (pdf_pass : Option String) (ei cb : Bool)
    (hopen : attemptOpen doc pdf_pass = true) :
    (read_pdf_file ⟨PdfInput.valid doc, p, z⟩ pdf_pass ei cb).1.metadata =
      doc.rawMetadata.map (fun kv => (cleanKey kv.1, metaValueToString kv.2)) := by
  cases cb <;> simp [read_pdf_file, hopen]

/-- A key that went through `cleanKey` never begins with the namespace
marker. -/
theorem startsWithMarker_cleanKey (k : String) : startsWithMarker (cleanKey k) = false := by
  show (match (k.toList.dropWhile (fun c => c == '/')) with
        | [] => false
        | c :: _ => c == '/') = false
  induction k.toList with
  | nil => rfl
  | cons c t ih =>
    by_cases h : (c == '/') = true
    · simpa [List.dropWhile_cons, h] using ih
    · simp only [List.dropWhile_cons, h, if_false]
      simpa using h

/-- C1: for every byte sequence that is not parseable as a PDF at all, the
extraction functions raise no fault (they are total) and return the fully
empty result — empty text, empty metadata mapping, empty image sequence, with
no sink invocations — and the Protection Prober reports it as not
protected. -/
theorem malformed_input_empty_result (s : ByteStream) (pdf_pass : Option String)
    (ei cb : Bool) (h : s.content = PdfInput.malformed) :
    read_pdf_file s pdf_pass ei cb = (⟨"", [], []⟩, []) ∧
    pdf_to_text s pdf_pass = "" ∧
    (is_pdf_protected s).1 = false := by
  obtain ⟨c, p, z⟩ := s
  simp only [ByteStream.mk.injEq] at h
  subst h
  exact ⟨rfl, rfl, rfl⟩

/-- Witness for C1 at a concrete malformed stream. -/
theorem malformed_input_empty_result_witness :
    read_pdf_file malformedStream none false false = (⟨"", [], []⟩, []) ∧
    pdf_to_text malformedStream none = "" ∧
    (is_pdf_protected malformedStream).1 = false :=
  malformed_input_empty_result malformedStream none false false rfl

/-- C3: for every structurally valid document, the Protection Prober answers
exactly the presence of the Encryption Descriptor — false for every
unencrypted document, true for every encrypted one regardless of which
password it was encrypted with, and no decryption is ever attempted. -/
theorem protection_probe_matches_encryption (s : ByteStream) (doc : DocHandle)
    (h : s.content = PdfInput.valid doc) :
    (is_pdf_protected s).1 = doc.encryption.isSome := by
  obtain ⟨c, p, z⟩ := s
  simp only [ByteStream.mk.injEq] at h
  subst h
  rfl

/-- Witness for C3: the unencrypted sample probes false, the encrypted sample
probes true. -/
theorem protection_probe_matches_encryption_witness :
    (is_pdf_protected sampleStream).1 = false ∧
    (is_pdf_protected encryptedStream).1 = true :=
  ⟨protection_probe_matches_encryption sampleStream metaDoc rfl,
   protection_probe_matches_encryption encryptedStream encDoc rfl⟩

/-- C5: the Protection Prober returns the stream with the read position — and
every other caller-observed attribute — exactly as it was immediately before
the call, on every exit path (valid and malformed input alike). -/
theorem prober_restores_position (s : ByteStream) : (is_pdf_protected s).2 = s :=
  is_pdf_protected_snd s

/-- C9: two consecutive Protection Prober calls on the same stream return the
same boolean, and afterwards the read position is unchanged relative to before
the first call. -/
theorem prober_idempotent (s : ByteStream) :
    (is_pdf_protected ((is_pdf_protected s).2)).1 = (is_pdf_protected s).1 ∧
    (is_pdf_protected ((is_pdf_protected s).2)).2.pos = s.pos := by
  rw [is_pdf_protected_snd s, is_pdf_protected_snd s]
  exact ⟨rfl, rfl⟩

/-- C8: the by-name prober resolves the extension case-insensitively; when the
lowered resolved extension is the PDF extension it delegates to
`is_pdf_protected`, and for every other extension it returns false with the
stream untouched. -/
theorem extension_dispatch (s : ByteStream) (name : String) (ext : Option String) :
    (lowerString (resolvedExtension name ext) = ".pdf" →
      is_file_password_protected s name ext = is_pdf_protected s) ∧
    (lowerString (resolvedExtension name ext) ≠ ".pdf" →
      is_file_password_protected s name ext = (false, s)) := by
  constructor <;> intro h <;> simp [is_file_password_protected, h]

/-- Witness for C8: an upper-case PDF name delegates, a txt name returns false
with the stream unchanged. -/
theorem extension_dispatch_witness :
    is_file_password_protected sampleStream "doc.PDF" none =
      is_pdf_protected sampleStream ∧
    is_file_password_protected sampleStream "doc.txt" none =
      (false, sampleStream) :=
  ⟨(extension_dispatch sampleStream "doc.PDF" none).1 (by decide),
   (extension_dispatch sampleStream "doc.txt" none).2 (by decide)⟩

/-- C10: when the key-value store lookup of the reindex flag raises
`KvKeyNotFoundError`, `fetch_settings` still returns normally, with
`needs_reindexing = false`, `notifications = []`, and the loaded general
settings passed through unchanged. -/
theorem fetch_settings_kv_not_found {α : Type} (general_settings : α)
    (e : KvKeyNotFoundError) :
    fetch_settings general_settings (Except.error e) =
      { settings := general_settings, notifications := [],
        needs_reindexing := false } :=
  rfl

/-- C2 counterexample: a document encrypted with the blank password is
encrypted, yet extraction with no password supplied opens it (the absent
password counts as an attempt with the empty password, the spec's
blank-owner-password convention) and returns its non-empty text, refuting
`extract(D, password=None).text = ""` for every encrypted document. -/
theorem extract_blank_password_counterexample :
    blankPasswordDoc.encryption.isSome = true ∧
    blankPasswordStream.content = PdfInput.valid blankPasswordDoc ∧
    (read_pdf_file blankPasswordStream none false false).1.text = "hello" ∧
    (read_pdf_file blankPasswordStream none false false).1.text ≠ "" := by
  refine ⟨rfl, rfl, rfl, ?_⟩
  decide

/-- C2 (amended): for a document encrypted with password P, extraction with P
raises no fault and yields the page-order text; with no password it yields the
fully empty result provided P is not the blank password; with any wrong
password it yields the fully empty result — failed-open cases return empty
text, empty metadata and an empty image sequence. -/
theorem extract_encrypted_password_behavior (s : ByteStream) (doc : DocHandle)
    (P : String) (ei cb : Bool)
    (hs : s.content = PdfInput.valid doc)
    (he : doc.encryption = some ⟨P⟩) :
    (read_pdf_file s (some P) ei cb).1.text =
      String.join (doc.pages.map pageText) ∧
    (P ≠ "" → (read_pdf_file s none ei cb).1 = ⟨"", [], []⟩) ∧
    (∀ w : String, w ≠ P → (read_pdf_file s (some w) ei cb).1 = ⟨"", [], []⟩) := by
  obtain ⟨c, p, z⟩ := s
  have hc : c = PdfInput.valid doc := hs
  subst hc
  refine ⟨?_, ?_, ?_⟩
  · have h1 : attemptOpen doc (some P) = true := by simp [attemptOpen, he]
    cases cb <;> simp [read_pdf_file, h1]
  · intro hP
    have h2 : attemptOpen doc none = false := by
      simp only [attemptOpen, he, Option.getD, beq_eq_false_iff_ne, ne_eq]
      exact fun hcontr => hP hcontr.symm
    simp [read_pdf_file, h2]
  · intro w hw
    have h3 : attemptOpen doc (some w) = false := by
      simp only [attemptOpen, he, Option.getD, beq_eq_false_iff_ne, ne_eq]
      exact hw
    simp [read_pdf_file, h3]

/-- Witness for C2 (amended) at the concrete encrypted sample with its
password, no password, and a wrong password. -/
theorem extract_encrypted_password_behavior_witness :
    (read_pdf_file encryptedStream (some "secret123") false false).1.text =
      String.join (encDoc.pages.map pageText) ∧
    (read_pdf_file encryptedStream none false false).1 = ⟨"", [], []⟩ ∧
    (read_pdf_file encryptedStream (some "wrongpass") false false).1 =
      ⟨"", [], []⟩ :=
  ⟨(extract_encrypted_password_behavior encryptedStream encDoc "secret123"
      false false rfl rfl).1,
   (extract_encrypted_password_behavior encryptedStream encDoc "secret123"
      false false rfl rfl).2.1 (by decide),
   (extract_encrypted_password_behavior encryptedStream encDoc "secret123"
      false false rfl rfl).2.2 "wrongpass" (by decide)⟩

/-- C4: for every successfully opened document the extracted text is the
concatenation of the per-page text in page order, and a page whose content
stream fails to decode contributes the empty string while the surrounding
pages are still extracted. -/
theorem extract_text_page_concatenation (s : ByteStream) (doc : DocHandle)
    (pdf_pass : Option String) (ei cb : Bool)
    (hs : s.content = PdfInput.valid doc)
    (hopen : attemptOpen doc pdf_pass = true) :
    (read_pdf_file s pdf_pass ei cb).1.text =
      String.join (doc.pages.map pageText) ∧
    (∀ pre pg post, doc.pages = pre ++ pg :: post → pg.textContent = none →
      (read_pdf_file s pdf_pass ei cb).1.text =
        String.join (pre.map pageText) ++ String.join (post.map pageText)) := by
  obtain ⟨c, p, z⟩ := s
  have hc : c = PdfInput.valid doc := hs
  subst hc
  have hmain : (read_pdf_file ⟨PdfInput.valid doc, p, z⟩ pdf_pass ei cb).1.text
      = String.join (doc.pages.map pageText) := by
    cases cb <;> simp [read_pdf_file, hopen]
  refine ⟨hmain, ?_⟩
  intro pre pg post hsplit hnone
  rw [hmain, hsplit, List.map_append, List.map_cons, string_join_append,
    string_join_cons]
  have hpg : pageText pg = "" := by simp [pageText, hnone]
  rw [hpg, String.empty_append]

/-- Witness for C4 at a three-page document whose middle page fails to
decode. -/
theorem extract_text_page_concatenation_witness :
    (read_pdf_file mixedStream none false false).1.text =
      String.join (List.map pageText [({ textContent := some "a", images := [] } : Page)]) ++
      String.join (List.map pageText [({ textContent := some "b", images := [] } : Page)]) :=
  (extract_text_page_concatenation mixedStream mixedDoc none false false rfl rfl).2
    [{ textContent := some "a", images := [] }]
    { textContent := none, images := [] }
    [{ textContent := some "b", images := [] }] rfl rfl

/-- C6: for a successfully opened document with N embedded images, extraction
with the image flag set and a sink supplied delivers exactly the discovered
images to the sink — one invocation per image, N in total — while the
returned image sequence is empty; the sink and the returned sequence are
never both populated. -/
theorem image_sink_exclusivity (s : ByteStream) (doc : DocHandle)
    (pdf_pass : Option String)
    (hs : s.content = PdfInput.valid doc)
    (hopen : attemptOpen doc pdf_pass = true) :
    (read_pdf_file s pdf_pass true true).2 =
      (doc.pages.map Page.images).flatten ∧
    (read_pdf_file s pdf_pass true true).2.length = numImages doc ∧
    (read_pdf_file s pdf_pass true true).1.images = [] ∧
    (∀ ei cb, (read_pdf_file s pdf_pass ei cb).1.images = [] ∨
              (read_pdf_file s pdf_pass ei cb).2 = []) := by
  obtain ⟨c, p, z⟩ := s
  have hc : c = PdfInput.valid doc := hs
  subst hc
  have h2 : (read_pdf_file ⟨PdfInput.valid doc, p, z⟩ pdf_pass true true).2 =
      (doc.pages.map Page.images).flatten := by
    simp [read_pdf_file, hopen]
  refine ⟨h2, ?_, ?_, ?_⟩
  · rw [h2, List.length_flatten, List.map_map]
    rfl
  · simp [read_pdf_file, hopen]
  · intro ei cb
    cases ei <;> cases cb <;> simp [read_pdf_file, hopen]

/-- Witness for C6 at a document with three embedded images over two pages. -/
theorem image_sink_exclusivity_witness :
    (read_pdf_file imageStream none true true).2.length = numImages imageDoc ∧
    (read_pdf_file imageStream none true true).1.images = [] :=
  ⟨(image_sink_exclusivity imageStream imageDoc none rfl rfl).2.1,
   (image_sink_exclusivity imageStream imageDoc none rfl rfl).2.2.1⟩

/-- C7: no key of the metadata mapping of any Extraction Result begins with
the namespace marker character — every raw key has its leading marker
stripped before it appears in the result. -/
theorem metadata_keys_marker_free (s : ByteStream) (pdf_pass : Option String)
    (ei cb : Bool) :
    ∀ kv ∈ (read_pdf_file s pdf_pass ei cb).1.metadata,
      startsWithMarker kv.1 = false := by
  intro kv hkv
  obtain ⟨c, p, z⟩ := s
  cases c with
  | malformed => simp [read_pdf_file] at hkv
  | valid doc =>
    cases ho : attemptOpen doc pdf_pass with
    | false => simp [read_pdf_file, ho] at hkv
    | true =>
      rw [read_pdf_file_metadata_valid doc p z pdf_pass ei cb ho] at hkv
      obtain ⟨a, ha, hax⟩ := List.mem_map.1 hkv
      rw [← hax]
      exact startsWithMarker_cleanKey a.1

/-- Witness for C7 at the sample document whose raw metadata key is
"/Title". -/
theorem metadata_keys_marker_free_witness :
    startsWithMarker "Title" = false :=
  metadata_keys_marker_free sampleStream none false false
    ("Title", "My Title") (by decide)
